import Mathlib

/-!
Verification of the signaling core of the media server (websocket_server.cpp,
http_server.cpp).  The C++ operations are embedded shallowly: strings are Lean
strings (byte-level operations work on the character list, which coincides with
the byte sequence for the ASCII data the protocol carries), the external
StreamingServer collaborator is an oracle record of functions, and side effects
of the router (collaborator calls, frames written back to the session) are
recorded in an explicit effect list.
-/

set_option maxRecDepth 10000

namespace MediaServer

/-- leadsWith p l is true when the list p is an initial segment of l,
the primitive used to model std string find. -/
def leadsWith : List Char → List Char → Bool
  | [], _ => true
  | _ :: _, [] => false
  | p :: ps, c :: cs => if p = c then leadsWith ps cs else false

/-- findSub pat l models std string find: the least index where pat occurs in
l, none when pat does not occur (npos). -/
def findSub (pat : List Char) : List Char → Option Nat
  | [] => if leadsWith pat [] = true then some 0 else none
  | c :: rest =>
    if leadsWith pat (c :: rest) = true then some 0
    else (findSub pat rest).map (fun n => n + 1)

/-- hasSub l pat: whether pat occurs in l, modelling find(...) != npos. -/
def hasSub (l pat : List Char) : Bool := (findSub pat l).isSome

/-- strContains s pat: substring containment on strings. -/
def strContains (s pat : String) : Bool := hasSub s.toList pat.toList

/-- ASCII tolower on one character, modelling ::tolower in the C locale. -/
def asciiLowerChar (c : Char) : Char :=
  if 'A' ≤ c ∧ c ≤ 'Z' then Char.ofNat (c.toNat + 32) else c

/-- ASCII lowercase of a string, modelling std transform with ::tolower. -/
def asciiLower (s : String) : String := String.mk (s.toList.map asciiLowerChar)

/-- MessageType from websocket_server.h. -/
inductive MessageType
  | OFFER
  | ANSWER
  | ICE_CANDIDATE
  | JOIN
  | LEAVE
  | ERROR
  | VIEWER_JOINED
  | VIEWER_LEFT
deriving DecidableEq, Repr

/-- WebSocketMessage from websocket_server.h. -/
structure WebSocketMessage where
  type : MessageType
  data : String
  room_id : String
  peer_id : String
deriving DecidableEq, Repr

/-- Room id extraction inside the JOIN branch of WebSocketSession parse code:
find the marker, take from marker end to the next double quote; the field stays
empty when marker or closing quote is absent. -/
def extract_room_id (json : List Char) : String :=
  match findSub "\"room_id\":\"".toList json with
  | none => ""
  | some room_pos =>
    let tail := json.drop (room_pos + 11)
    match findSub ['"'] tail with
    | none => ""
    | some e => String.mk (tail.take e)

/-- WebSocketSession message decoding: best effort substring matching on the
type field in source order; anything unrecognized decodes to ERROR; data always
carries the raw input. -/
def parse_message (json : String) : WebSocketMessage :=
  if strContains json "\"type\":\"join\"" || strContains json "\"type\":\"JOIN\"" then
    { type := .JOIN, data := json, room_id := extract_room_id json.toList, peer_id := "" }
  else if strContains json "\"type\":\"offer\"" then
    { type := .OFFER, data := json, room_id := "", peer_id := "" }
  else if strContains json "\"type\":\"answer\"" then
    { type := .ANSWER, data := json, room_id := "", peer_id := "" }
  else if strContains json "\"type\":\"ice_candidate\"" || strContains json "\"type\":\"candidate\"" then
    { type := .ICE_CANDIDATE, data := json, room_id := "", peer_id := "" }
  else if strContains json "\"type\":\"leave\"" then
    { type := .LEAVE, data := json, room_id := "", peer_id := "" }
  else
    { type := .ERROR, data := json, room_id := "", peer_id := "" }

/-- Lowercase wire name of a message type, from WebSocketSession build code. -/
def typeName : MessageType → String
  | .OFFER => "offer"
  | .ANSWER => "answer"
  | .ICE_CANDIDATE => "ice_candidate"
  | .JOIN => "join"
  | .LEAVE => "leave"
  | .VIEWER_JOINED => "viewer_joined"
  | .VIEWER_LEFT => "viewer_left"
  | .ERROR => "error"

/-- Outbound frame encoding of WebSocketSession: data embedded as a raw value. -/
def build_message (type : MessageType) (data : String) : String :=
  "\x7b\"type\":\"" ++ typeName type ++ "\",\"data\":" ++ data ++ "\x7d"

/-- ParticipantRole of the external streaming collaborator. -/
inductive Role
  | HOST
  | VIEWER
deriving DecidableEq, Repr

/-- The mutable per connection state of a WebSocketSession: identity fields and
whether the owned transport is still open. -/
structure Session where
  room_id : String
  peer_id : String
  is_host : Bool
  isOpen : Bool
deriving DecidableEq, Repr

/-- Observable side effects of the router: calls into the external collaborator
and frames written back to the owning session. -/
inductive Effect
  | add_peer_call (room display meta : String) (role : Role)
  | remove_peer_call (peer : String)
  | send_self (frame : String)
deriving DecidableEq, Repr

/-- Oracle for the external StreamingServer collaborator: the peer id that
add_peer returns for given arguments (empty on failure). -/
structure StreamingServer where
  add_peer : String → String → String → Role → String

/-- The switch body of WebSocketSession handle code applied to a decoded
message: JOIN binds identity, calls add_peer and acks; OFFER echoes an ANSWER;
LEAVE calls remove_peer when a peer id is bound and closes; ANSWER and
ICE_CANDIDATE are receipt only; everything else is a logged no-op. -/
def route_message (srv : StreamingServer) (s : Session) (msg : WebSocketMessage) :
    Session × List Effect :=
  match msg.type with
  | .JOIN =>
    let is_host := strContains msg.data "\"role\":\"host\""
    let role := if is_host then Role.HOST else Role.VIEWER
    let pid := srv.add_peer msg.room_id msg.data msg.data role
    let ack := build_message .JOIN
      ("\x7b\"peer_id\":\"" ++ pid ++ "\",\"room_id\":\"" ++ msg.room_id ++ "\"\x7d")
    ({ s with room_id := msg.room_id, peer_id := pid, is_host := is_host },
     [.add_peer_call msg.room_id msg.data msg.data role, .send_self ack])
  | .OFFER => (s, [.send_self (build_message .ANSWER msg.data)])
  | .ANSWER => (s, [])
  | .ICE_CANDIDATE => (s, [])
  | .LEAVE =>
    let effs := if s.peer_id = "" then [] else [Effect.remove_peer_call s.peer_id]
    ({ s with isOpen := false }, effs)
  | _ => (s, [])

/-- WebSocketSession handle code: decode, then route. -/
def handle_message (srv : StreamingServer) (s : Session) (input : String) :
    Session × List Effect :=
  route_message srv s (parse_message input)

/-- The read loop of a session: each completed read hands the payload to
handle code and rearms the read; once the transport is closed the pending read
fails with the closed error and the loop exits, so later frames are never
processed. -/
def read_loop (srv : StreamingServer) : Session → List String → Session × List Effect
  | s, [] => (s, [])
  | s, f :: fs =>
    if s.isOpen then
      let r := handle_message srv s f
      let rest := read_loop srv r.1 fs
      (rest.1, r.2 ++ rest.2)
    else (s, [])

/-- First match lookup in an association list, modelling std map find (the
registries keep keys unique, map semantics). -/
def lookupA {α : Type} : List (String × α) → String → Option α
  | [], _ => none
  | kv :: rest, k => if kv.1 = k then some kv.2 else lookupA rest k

/-- WebSocketServer state for the registry operations: the running flag, the
listening acceptor, and the sessions map keyed by peer id. -/
structure WSServer where
  running : Bool
  acceptorOpen : Bool
  sessions : List (String × Session)
deriving DecidableEq, Repr

/-- WebSocketServer broadcast: scan the sessions map and send the message to
every session whose room matches and whose key differs from the excluded peer
id; result is the list of deliveries (registry key, message sent). -/
def broadcast_to_room (sessions : List (String × Session))
    (room_id message exclude_peer_id : String) : List (String × String) :=
  (sessions.filter
      (fun kv => kv.2.room_id = room_id ∧ kv.1 ≠ exclude_peer_id)).map
    (fun kv => (kv.1, message))

/-- WebSocketServer unicast: look the peer up, send when present, silently
drop when absent; result is the key delivered to, if any. -/
def send_to_peer (sessions : List (String × Session))
    (peer_id message : String) : Option (String × String) :=
  match lookupA sessions peer_id with
  | some _ => some (peer_id, message)
  | none => none

/-- WebSocketServer register code: map insert or overwrite under the registry
lock; not guarded by the running flag. -/
def register_session (st : WSServer) (peer_id : String) (s : Session) : WSServer :=
  { st with sessions := (peer_id, s) :: st.sessions.filter (fun kv => kv.1 ≠ peer_id) }

/-- WebSocketServer unregister code: map erase, a no-op when absent. -/
def unregister_session (st : WSServer) (peer_id : String) : WSServer :=
  { st with sessions := st.sessions.filter (fun kv => kv.1 ≠ peer_id) }

/-- The teardown steps of WebSocketServer stop code, in a trace. -/
inductive StopStep
  | setRunningFalse
  | closeSessionsAndClear
  | closeAcceptor
  | stopIoContext
  | joinAcceptThread
deriving DecidableEq, Repr

/-- WebSocketServer stop code: early return when not running; otherwise clear
the running flag, close every registered session and empty the map, close the
acceptor, stop the io context and join the accept thread, in source order.
The step trace records that order. -/
def stop (st : WSServer) : WSServer × List StopStep :=
  if st.running = false then (st, [])
  else
    ({ running := false, acceptorOpen := false, sessions := [] },
     [StopStep.setRunningFalse, StopStep.closeSessionsAndClear,
      StopStep.closeAcceptor, StopStep.stopIoContext, StopStep.joinAcceptThread])

/-- HttpServer upgrade detection: exact key lookups of the three required
headers in the request header map; absent one of them means false; otherwise
the Upgrade value, lowercased, must contain websocket. -/
def is_websocket_upgrade (headers : List (String × String)) : Bool :=
  match lookupA headers "Upgrade", lookupA headers "Connection",
        lookupA headers "Sec-WebSocket-Key" with
  | some upgrade_val, some _, some _ =>
      strContains (asciiLower upgrade_val) "websocket"
  | _, _, _ => false

/-- Path parsing of HttpServer upgrade handling: find the /room/ marker, the
room id runs to the next slash, the role is the whole remainder of the path;
the role must be exactly host or viewer, then the room id must be nonempty;
any failure rejects the upgrade. -/
def parse_upgrade_path (path : List Char) : Option (List Char × Bool) :=
  match findSub "/room/".toList path with
  | none => none
  | some room_pos =>
    let tail := path.drop (room_pos + 6)
    match findSub ['/'] tail with
    | none => none
    | some id_end =>
      let rid := tail.take id_end
      let role := tail.drop (id_end + 1)
      if role = "host".toList then (if rid = [] then none else some (rid, true))
      else if role = "viewer".toList then (if rid = [] then none else some (rid, false))
      else none

/-- Peer id synthesis of HttpServer upgrade handling: room, role word and the
clock value, joined by underscores. -/
def mk_peer_id (room : List Char) (is_host : Bool) (ts : Nat) : List Char :=
  room ++ '_' :: (if is_host then "host".toList else "viewer".toList)
       ++ '_' :: (toString ts).toList

/-- HttpServer upgrade handling followed by the handoff into
accept_upgraded_connection: parse the path, require the websocket key header,
require the 101 response write to succeed (writeOk), then construct the
session pre bound to room, synthesized peer id and role with its transport
open.  A none result is a rejected upgrade: no session is created. -/
def handle_websocket_upgrade (path : List Char) (wsKey : Option String)
    (writeOk : Bool) (ts : Nat) : Option Session :=
  match parse_upgrade_path path with
  | none => none
  | some (rid, is_host) =>
    match wsKey with
    | none => none
    | some _ =>
      if writeOk then
        some { room_id := String.mk rid,
               peer_id := String.mk (mk_peer_id rid is_host ts),
               is_host := is_host, isOpen := true }
      else none

/-- 2 to the 32, the modulus of the 32 bit words of the hash. -/
def M32 : Nat := 4294967296

/-- Left rotation of a 32 bit word. -/
def rotl (n x : Nat) : Nat := ((x * 2 ^ n) % M32) ||| (x / 2 ^ (32 - n))

/-- Big endian bytes of a 32 bit word. -/
def bytesBE4 (n : Nat) : List Nat :=
  [n / 16777216 % 256, n / 65536 % 256, n / 256 % 256, n % 256]

/-- Big endian bytes of a 64 bit length field. -/
def bytesBE8 (n : Nat) : List Nat :=
  bytesBE4 (n / M32 % M32) ++ bytesBE4 (n % M32)

/-- Standard padding of the 160 bit hash: a one bit, zeros to 56 mod 64
bytes, then the bit length in 8 big endian bytes. -/
def sha1pad (msg : List Nat) : List Nat :=
  msg ++ 128 :: List.replicate ((119 - msg.length % 64) % 64) 0
      ++ bytesBE8 (msg.length * 8)

/-- Group bytes four at a time into big endian 32 bit words. -/
def toWords : List Nat → List Nat
  | b0 :: b1 :: b2 :: b3 :: rest =>
      (b0 * 16777216 + b1 * 65536 + b2 * 256 + b3) :: toWords rest
  | _ => []

/-- Message schedule extension, carried with the newest word first. -/
def extendW : Nat → List Nat → List Nat
  | 0, wrev => wrev
  | n + 1, wrev =>
    let x := (wrev.getD 2 0) ^^^ (wrev.getD 7 0) ^^^ (wrev.getD 13 0) ^^^ (wrev.getD 15 0)
    extendW n (rotl 1 x :: wrev)

/-- Round function of the hash. -/
def sha1f (i b c d : Nat) : Nat :=
  if i < 20 then (b &&& c) ||| ((4294967295 - b) &&& d)
  else if i < 40 then b ^^^ c ^^^ d
  else if i < 60 then (b &&& c) ||| (b &&& d) ||| (c &&& d)
  else b ^^^ c ^^^ d

/-- Round constants of the hash. -/
def sha1k (i : Nat) : Nat :=
  if i < 20 then 1518500249
  else if i < 40 then 1859775393
  else if i < 60 then 2400959708
  else 3395469782

/-- The 80 compression rounds over one schedule. -/
def sha1rounds (w : List Nat) : Nat → Nat → Nat × Nat × Nat × Nat × Nat → Nat × Nat × Nat × Nat × Nat
  | 0, _, st => st
  | n + 1, i, (a, b, c, d, e) =>
    let temp := (rotl 5 a + sha1f i b c d + e + sha1k i + w.getD i 0) % M32
    sha1rounds w n (i + 1) (temp, a, rotl 30 b, c, d)

/-- One 64 byte chunk folded into the running state. -/
def sha1chunk (h : Nat × Nat × Nat × Nat × Nat) (chunk : List Nat) :
    Nat × Nat × Nat × Nat × Nat :=
  let w := (extendW 64 (toWords chunk).reverse).reverse
  let r := sha1rounds w 80 0 h
  ((h.1 + r.1) % M32, (h.2.1 + r.2.1) % M32, (h.2.2.1 + r.2.2.1) % M32,
   (h.2.2.2.1 + r.2.2.2.1) % M32, (h.2.2.2.2 + r.2.2.2.2) % M32)

/-- Split a byte list into 64 byte chunks, carrying the current chunk
reversed; the padded input is always an exact multiple of 64 bytes. -/
def chunksAux : List Nat → List Nat → List (List Nat)
  | [], acc => if acc = [] then [] else [acc.reverse]
  | b :: rest, acc =>
    if acc.length = 63 then (b :: acc).reverse :: chunksAux rest []
    else chunksAux rest (b :: acc)

/-- Split a byte list into 64 byte chunks. -/
def chunks64 (l : List Nat) : List (List Nat) := chunksAux l []

/-- SHA-1 of a byte list, the 160 bit secure hash the handshake uses,
modelling the library primitive by the standard algorithm. -/
def sha1 (msg : List Nat) : List Nat :=
  let h := (chunks64 (sha1pad msg)).foldl sha1chunk
    (1732584193, 4023233417, 2562383102, 271733878, 3285377520)
  bytesBE4 h.1 ++ bytesBE4 h.2.1 ++ bytesBE4 h.2.2.1 ++ bytesBE4 h.2.2.2.1 ++ bytesBE4 h.2.2.2.2

/-- The base64 alphabet. -/
def b64tbl (i : Nat) : Char :=
  "ABCDEFGHIJKLMNOPQRSTUVWXYZabcdefghijklmnopqrstuvwxyz0123456789+/".toList.getD i 'A'

/-- Standard base64 without line breaks, modelling the library encoder with
the no newline flag. -/
def base64Encode : List Nat → List Char
  | a :: b :: c :: rest =>
      b64tbl (a / 4) :: b64tbl ((a % 4) * 16 + b / 16) ::
      b64tbl ((b % 16) * 4 + c / 64) :: b64tbl (c % 64) :: base64Encode rest
  | [a, b] => [b64tbl (a / 4), b64tbl ((a % 4) * 16 + b / 16), b64tbl ((b % 16) * 4), '=']
  | [a] => [b64tbl (a / 4), b64tbl ((a % 4) * 16), '=', '=']
  | [] => []

/-- Code point bytes of a string; the protocol strings here are ASCII, where
this is the byte sequence of the C++ string. -/
def strBytes (s : String) : List Nat := s.toList.map Char.toNat

/-- The fixed protocol magic GUID of the handshake. -/
def wsMagic : String := "258EAFA5-E914-47DA-95CA-C5AB0DC85B11"

/-- HttpServer accept credential: append the magic GUID to the client nonce,
hash, base64 encode the digest. -/
def compute_websocket_accept (key : String) : String :=
  String.mk (base64Encode (sha1 (strBytes (key ++ wsMagic))))

/-- Which constructor created a session: the native accept path constructs an
unbound session, the handoff path a pre bound one. -/
inductive Origin
  | native
  | handoff
deriving DecidableEq, Repr

/-- A live session together with its provenance. -/
structure SysSession where
  sess : Session
  origin : Origin
deriving DecidableEq, Repr

/-- Whole subsystem state for the registry provenance invariant: all sessions
ever constructed (keyed by a fresh numeric handle), and the registry mapping
peer ids to session handles. -/
structure SysState where
  nextId : Nat
  sessions : List (Nat × SysSession)
  registry : List (String × Nat)
deriving DecidableEq, Repr

/-- First match lookup of a session handle. -/
def lookupSess : List (Nat × SysSession) → Nat → Option SysSession
  | [], _ => none
  | kv :: rest, i => if kv.1 = i then some kv.2 else lookupSess rest i

/-- Update the session stored under one handle. -/
def updateSess (l : List (Nat × SysSession)) (i : Nat) (f : SysSession → SysSession) :
    List (Nat × SysSession) :=
  l.map (fun kv => if kv.1 = i then (kv.1, f kv.2) else kv)

/-- The events the repository code performs against the registry and the
sessions: a native protocol accept (on_accept constructs an unbound session
and never registers it), a pre negotiated handoff (accept_upgraded_connection
constructs a bound session and registers it), a frame processed by the read
loop of one session (handle code never touches the registry), an unregister,
and server stop. -/
inductive SysEvent
  | nativeAccept
  | handoffAccept (room peer : String) (is_host : Bool)
  | frame (sid : Nat) (input : String)
  | unregister (peer : String)
  | serverStop
deriving DecidableEq, Repr

/-- One event applied to the subsystem state, following the source of
on_accept, accept_upgraded_connection, the session read loop, and the registry
operations. -/
def applyEvent (srv : StreamingServer) (st : SysState) : SysEvent → SysState
  | .nativeAccept =>
    { st with
      nextId := st.nextId + 1,
      sessions := (st.nextId, ⟨⟨"", "", false, true⟩, Origin.native⟩) :: st.sessions }
  | .handoffAccept room peer is_host =>
    { nextId := st.nextId + 1,
      sessions := (st.nextId, ⟨⟨room, peer, is_host, true⟩, Origin.handoff⟩) :: st.sessions,
      registry := (peer, st.nextId) :: st.registry.filter (fun kv => kv.1 ≠ peer) }
  | .frame sid input =>
    { st with
      sessions := updateSess st.sessions sid
        (fun ss =>
          if ss.sess.isOpen then { ss with sess := (handle_message srv ss.sess input).1 }
          else ss) }
  | .unregister peer =>
    { st with registry := st.registry.filter (fun kv => kv.1 ≠ peer) }
  | .serverStop =>
    { st with
      registry := [],
      sessions := st.sessions.map
        (fun kv =>
          if (st.registry.map (fun pr => pr.2)).contains kv.1 then
            (kv.1, { kv.2 with sess := { kv.2.sess with isOpen := false } })
          else kv) }

/-- The empty initial subsystem state. -/
def initState : SysState := { nextId := 0, sessions := [], registry := [] }

/-- State after a list of events from the initial state. -/
def runEvents (srv : StreamingServer) (evs : List SysEvent) : SysState :=
  evs.foldl (applyEvent srv) initState

/-- The session handles a broadcast call delivers to: the registry entries
whose session is in the wanted room and whose key differs from the excluded
peer id. -/
def sysBroadcastTargets (st : SysState) (room_id exclude_peer_id : String) : List Nat :=
  st.registry.filterMap
    (fun pr =>
      match lookupSess st.sessions pr.2 with
      | some ss =>
        if ss.sess.room_id = room_id ∧ pr.1 ≠ exclude_peer_id then some pr.2 else none
      | none => none)

/-- The session handle a unicast call delivers to, if any. -/
def sysSendTarget (st : SysState) (peer_id : String) : Option Nat :=
  match lookupA st.registry peer_id with
  | some sid =>
    match lookupSess st.sessions sid with
    | some _ => some sid
    | none => none
  | none => none

/-- Accept credential written from the words of the specification: append the
fixed magic GUID, hash with the 160 bit secure hash, base64 encode. -/
def accept_credential_spec (nonce : String) : String :=
  String.mk (base64Encode (sha1 (strBytes (nonce ++ "258EAFA5-E914-47DA-95CA-C5AB0DC85B11"))))

/-- Oracle whose add_peer always returns the peer id p1. -/
def srv0 : StreamingServer := ⟨fun _ _ _ _ => "p1"⟩

/-- Oracle whose add_peer always fails, returning the empty peer id. -/
def srvFail : StreamingServer := ⟨fun _ _ _ _ => ""⟩

/-- A freshly accepted, unbound, open session. -/
def sessUnjoined : Session := ⟨"", "", false, true⟩

/-- A concrete JOIN frame carrying the host role marker. -/
def joinHostInput : String := "\x7b\"type\":\"join\",\"room_id\":\"r1\",\"role\":\"host\"\x7d"

/-- A concrete JOIN frame without the host role marker. -/
def joinViewerInput : String := "\x7b\"type\":\"join\",\"room_id\":\"r1\"\x7d"

/-- A concrete LEAVE frame. -/
def leaveInput : String := "\x7b\"type\":\"leave\"\x7d"

lemma parse_message_data (json : String) : (parse_message json).data = json := by
  unfold parse_message
  (repeat' split) <;> rfl

/-- The JOIN equation of the router, shared by several claims: for any decoded
JOIN, the router rebinds the identity from the message, calls add_peer with the
raw payload twice and the derived role, and acks to the joining session. -/
lemma handle_message_join (srv : StreamingServer) (s : Session) (input : String)
    (ht : (parse_message input).type = .JOIN) :
    handle_message srv s input =
      ({ s with
          room_id := (parse_message input).room_id,
          peer_id := srv.add_peer (parse_message input).room_id input input
            (if strContains input "\"role\":\"host\"" then Role.HOST else Role.VIEWER),
          is_host := strContains input "\"role\":\"host\"" },
       [Effect.add_peer_call (parse_message input).room_id input input
          (if strContains input "\"role\":\"host\"" then Role.HOST else Role.VIEWER),
        Effect.send_self (build_message .JOIN
          ("\x7b\"peer_id\":\""
            ++ srv.add_peer (parse_message input).room_id input input
                 (if strContains input "\"role\":\"host\"" then Role.HOST else Role.VIEWER)
            ++ "\",\"room_id\":\"" ++ (parse_message input).room_id ++ "\"\x7d"))]) := by
  have hd : (parse_message input).data = input := parse_message_data input
  unfold handle_message route_message
  rw [ht, hd]

/-- The LEAVE equation of the router: remove_peer exactly when a peer id is
bound, then close. -/
lemma handle_message_leave (srv : StreamingServer) (s : Session) (input : String)
    (ht : (parse_message input).type = .LEAVE) :
    handle_message srv s input =
      ({ s with isOpen := false },
       if s.peer_id = "" then [] else [Effect.remove_peer_call s.peer_id]) := by
  unfold handle_message route_message
  rw [ht]

/-- A closed session processes nothing: the pending read fails with the closed
error and the loop exits. -/
lemma read_loop_closed (srv : StreamingServer) (s : Session) (frames : List String)
    (h : s.isOpen = false) : read_loop srv s frames = (s, []) := by
  cases frames <;> simp [read_loop, h]

/-- C1: a session in the UNJOINED state receiving a decoded JOIN has its
room_id set from the message, its role set to HOST exactly when the payload
contains the host role marker, add_peer called with the room and the payload
as display and metadata, the returned peer id bound as identity, and exactly
one JOIN ack containing that peer id and room id sent back to the joining
session; the session is then JOINED (identity bound, transport open). -/
theorem join_transition (srv : StreamingServer) (s : Session) (input : String)
    (hunjoined : s.peer_id = "") (hopen : s.isOpen = true)
    (ht : (parse_message input).type = .JOIN) :
    handle_message srv s input =
      ({ room_id := (parse_message input).room_id,
         peer_id := srv.add_peer (parse_message input).room_id input input
           (if strContains input "\"role\":\"host\"" then Role.HOST else Role.VIEWER),
         is_host := strContains input "\"role\":\"host\"",
         isOpen := true },
       [Effect.add_peer_call (parse_message input).room_id input input
          (if strContains input "\"role\":\"host\"" then Role.HOST else Role.VIEWER),
        Effect.send_self (build_message .JOIN
          ("\x7b\"peer_id\":\""
            ++ srv.add_peer (parse_message input).room_id input input
                 (if strContains input "\"role\":\"host\"" then Role.HOST else Role.VIEWER)
            ++ "\",\"room_id\":\"" ++ (parse_message input).room_id ++ "\"\x7d"))]) := by
  rw [handle_message_join srv s input ht]
  cases s
  simp_all

/-- Witness for C1 at a concrete host JOIN. -/
theorem join_transition_witness :
    handle_message srv0 sessUnjoined joinHostInput =
      ({ room_id := "r1", peer_id := "p1", is_host := true, isOpen := true },
       [Effect.add_peer_call "r1" joinHostInput joinHostInput Role.HOST,
        Effect.send_self "\x7b\"type\":\"join\",\"data\":\x7b\"peer_id\":\"p1\",\"room_id\":\"r1\"\x7d\x7d"]) := by
  have h := join_transition srv0 sessUnjoined joinHostInput rfl rfl (by decide)
  exact h.trans (by decide)

/-- C2: a bound, open session processing a LEAVE triggers exactly one
remove_peer call with its peer id and transitions to closed; processing the
same LEAVE again afterwards triggers nothing, because a closed session
processes no further frames. -/
theorem leave_once (srv : StreamingServer) (s : Session) (m : String)
    (hopen : s.isOpen = true) (hbound : s.peer_id ≠ "")
    (ht : (parse_message m).type = .LEAVE) :
    handle_message srv s m = ({ s with isOpen := false }, [Effect.remove_peer_call s.peer_id]) ∧
    read_loop srv s [m, m] = ({ s with isOpen := false }, [Effect.remove_peer_call s.peer_id]) ∧
    (∀ (s₂ : Session) (frames : List String), s₂.isOpen = false →
      read_loop srv s₂ frames = (s₂, [])) := by
  have h1 : handle_message srv s m =
      ({ s with isOpen := false }, [Effect.remove_peer_call s.peer_id]) := by
    rw [handle_message_leave srv s m ht]
    simp [hbound]
  refine ⟨h1, ?_, fun s₂ frames h => read_loop_closed srv s₂ frames h⟩
  simp [read_loop, hopen, h1, read_loop_closed]

/-- Witness for C2 at a concrete bound session and LEAVE frame. -/
theorem leave_once_witness :
    handle_message srv0 ⟨"r1", "p1", true, true⟩ leaveInput =
      (⟨"r1", "p1", true, false⟩, [Effect.remove_peer_call "p1"]) ∧
    read_loop srv0 ⟨"r1", "p1", true, true⟩ [leaveInput, leaveInput] =
      (⟨"r1", "p1", true, false⟩, [Effect.remove_peer_call "p1"]) := by
  have h := leave_once srv0 ⟨"r1", "p1", true, true⟩ leaveInput rfl (by decide) (by decide)
  exact ⟨h.1, h.2.1⟩

/-- C4: the accept credential is the fixed reference algorithm, base64 of the
160 bit hash of the nonce concatenated with the magic GUID, and it maps the
known vector nonce to the known accept value. -/
theorem accept_credential_reference :
    (∀ nonce : String, compute_websocket_accept nonce = accept_credential_spec nonce) ∧
    compute_websocket_accept "dGhlIHNhbXBsZSBub25jZQ==" = "s3pPLMBiTxaQ9kYGzzhZRbK+xOo=" :=
  ⟨fun _ => rfl, by decide⟩

/-- C6: the decoder is total, any input without one of the recognized type
markers decodes to ERROR with the raw input kept as data, and the router
treats it as a pure no-op: no state change, no reply, connection untouched. -/
theorem unknown_decodes_to_error_noop (srv : StreamingServer) (s : Session) (json : String)
    (h1 : strContains json "\"type\":\"join\"" = false)
    (h2 : strContains json "\"type\":\"JOIN\"" = false)
    (h3 : strContains json "\"type\":\"offer\"" = false)
    (h4 : strContains json "\"type\":\"answer\"" = false)
    (h5 : strContains json "\"type\":\"ice_candidate\"" = false)
    (h6 : strContains json "\"type\":\"candidate\"" = false)
    (h7 : strContains json "\"type\":\"leave\"" = false) :
    (parse_message json).type = .ERROR ∧ (parse_message json).data = json ∧
    handle_message srv s json = (s, []) := by
  have hp : parse_message json =
      { type := .ERROR, data := json, room_id := "", peer_id := "" } := by
    unfold parse_message
    simp [h1, h2, h3, h4, h5, h6, h7]
  refine ⟨by rw [hp], by rw [hp], ?_⟩
  unfold handle_message
  rw [hp]
  rfl

/-- Witness for C6 at a concrete marker free input. -/
theorem unknown_decodes_witness :
    (parse_message "hello").type = .ERROR ∧ (parse_message "hello").data = "hello" ∧
    handle_message srv0 sessUnjoined "hello" = (sessUnjoined, []) :=
  unknown_decodes_to_error_noop srv0 sessUnjoined "hello" (by decide) (by decide) (by decide)
    (by decide) (by decide) (by decide) (by decide)

lemma assoc_value_unique {α : Type} (l : List (String × α))
    (hnd : (l.map Prod.fst).Nodup) {k : String} {a b : α}
    (ha : (k, a) ∈ l) (hb : (k, b) ∈ l) : a = b := by
  induction l with
  | nil => cases ha
  | cons kv rest ih =>
    simp only [List.map_cons, List.nodup_cons] at hnd
    rcases List.mem_cons.mp ha with ha1 | ha1 <;>
    rcases List.mem_cons.mp hb with hb1 | hb1
    · exact congrArg Prod.snd (ha1.trans hb1.symm)
    · exfalso
      apply hnd.1
      have hk : kv.1 = k := by rw [← ha1]
      rw [hk]
      exact List.mem_map_of_mem Prod.fst hb1
    · exfalso
      apply hnd.1
      have hk : kv.1 = k := by rw [← hb1]
      rw [hk]
      exact List.mem_map_of_mem Prod.fst ha1
    · exact ih hnd.2 ha1 hb1

/-- A session registered under the empty key, to witness the exclusion
behavior of broadcast with an empty exclude argument. -/
def roomRSession : Session := ⟨"R", "", false, true⟩

/-- C3 counterexample: a registered session whose room is R receives nothing
from a broadcast to R with the empty exclude argument, because the scan skips
any session whose key equals the exclude string, the empty string included.
So with E empty it is not the case that no session is excluded. -/
theorem broadcast_empty_exclude_cex :
    ("", roomRSession) ∈ [("", roomRSession)] ∧ roomRSession.room_id = "R" ∧
    ("", "msg") ∉ broadcast_to_room [("", roomRSession)] "R" "msg" "" := by
  refine ⟨by simp, rfl, ?_⟩
  decide

/-- C3 amended: broadcast delivers the message to every registered session
whose room matches and whose registry key differs from the exclude argument,
and to no session whose room differs; with the empty exclude argument every
matching session whose key is nonempty receives, and only a session keyed by
the empty string is excluded. -/
theorem broadcast_delivery (sessions : List (String × Session))
    (hnd : (sessions.map Prod.fst).Nodup) (R m E : String) :
    (∀ k s, (k, s) ∈ sessions → s.room_id = R → k ≠ E →
      (k, m) ∈ broadcast_to_room sessions R m E) ∧
    (∀ k s, (k, s) ∈ sessions → s.room_id ≠ R →
      (k, m) ∉ broadcast_to_room sessions R m E) ∧
    (∀ k s, (k, s) ∈ sessions → s.room_id = R → k ≠ "" →
      (k, m) ∈ broadcast_to_room sessions R m "") := by
  have hpos : ∀ (E' : String) k s, (k, s) ∈ sessions → s.room_id = R → k ≠ E' →
      (k, m) ∈ broadcast_to_room sessions R m E' := by
    intro E' k s hmem hroom hk
    unfold broadcast_to_room
    refine List.mem_map.mpr ⟨(k, s), List.mem_filter.mpr ⟨hmem, ?_⟩, rfl⟩
    simp [hroom, hk]
  refine ⟨hpos E, ?_, hpos ""⟩
  intro k s hmem hroom hin
  unfold broadcast_to_room at hin
  rcases List.mem_map.mp hin with ⟨kv, hkv, heq⟩
  rcases List.mem_filter.mp hkv with ⟨hkv_mem, hp⟩
  have hk : kv.1 = k := congrArg Prod.fst heq
  simp only [decide_eq_true_eq] at hp
  have hs : kv.2 = s := by
    have : (k, kv.2) ∈ sessions := by
      have : kv = (k, kv.2) := Prod.ext hk rfl
      exact this ▸ hkv_mem
    exact assoc_value_unique sessions hnd this hmem
  exact hroom (hs ▸ hp.1)

/-- Witness for C3 amended at a concrete two room registry. -/
theorem broadcast_delivery_witness :
    ("a", "m") ∈ broadcast_to_room [("a", ⟨"R", "a", true, true⟩), ("b", ⟨"S", "b", false, true⟩)] "R" "m" "x" ∧
    ("b", "m") ∉ broadcast_to_room [("a", ⟨"R", "a", true, true⟩), ("b", ⟨"S", "b", false, true⟩)] "R" "m" "x" := by
  have h := broadcast_delivery [("a", ⟨"R", "a", true, true⟩), ("b", ⟨"S", "b", false, true⟩)]
    (by decide) "R" "m" "x"
  exact ⟨h.1 "a" ⟨"R", "a", true, true⟩ (by simp) rfl (by decide),
         h.2.1 "b" ⟨"S", "b", false, true⟩ (by simp) (by decide)⟩

/-- C9: upgrade detection is true exactly when the request has an Upgrade
header whose lowercased value contains websocket and both the Connection and
the Sec-WebSocket-Key headers are present; if any one of the three is absent
it is false and the request falls through to ordinary routing. -/
theorem is_upgrade_characterization (headers : List (String × String)) :
    (is_websocket_upgrade headers = true ↔
      (∃ u, lookupA headers "Upgrade" = some u ∧ strContains (asciiLower u) "websocket" = true) ∧
      (lookupA headers "Connection").isSome = true ∧
      (lookupA headers "Sec-WebSocket-Key").isSome = true) ∧
    (lookupA headers "Upgrade" = none → is_websocket_upgrade headers = false) ∧
    (lookupA headers "Connection" = none → is_websocket_upgrade headers = false) ∧
    (lookupA headers "Sec-WebSocket-Key" = none → is_websocket_upgrade headers = false) := by
  unfold is_websocket_upgrade
  rcases hU : lookupA headers "Upgrade" with _ | u <;>
  rcases hC : lookupA headers "Connection" with _ | c <;>
  rcases hK : lookupA headers "Sec-WebSocket-Key" with _ | k <;>
  simp [hU, hC, hK]

/-- Witness for C9: a complete header set is detected, a set missing the
Upgrade header is not. -/
theorem is_upgrade_witness :
    is_websocket_upgrade
      [("Upgrade", "WebSocket"), ("Connection", "Upgrade"), ("Sec-WebSocket-Key", "k")] = true ∧
    is_websocket_upgrade [("Connection", "Upgrade"), ("Sec-WebSocket-Key", "k")] = false := by
  constructor
  · exact (is_upgrade_characterization _).1.mpr ⟨⟨"WebSocket", rfl, by decide⟩, rfl, rfl⟩
  · exact (is_upgrade_characterization _).2.1 rfl

lemma leadsWith_append (p t : List Char) : leadsWith p (p ++ t) = true := by
  induction p with
  | nil => rfl
  | cons c cs ih => simp [leadsWith, ih]

lemma findSub_here (pat l : List Char) (h : leadsWith pat l = true) :
    findSub pat l = some 0 := by
  cases l <;> simp [findSub, h]

lemma findSub_slash (id rest : List Char) (h : '/' ∉ id) :
    findSub ['/'] (id ++ '/' :: rest) = some id.length := by
  induction id with
  | nil => simp [findSub, leadsWith]
  | cons c cs ih =>
    have hc : ('/' : Char) ≠ c := fun he => h (by simp [← he])
    have h2 : '/' ∉ cs := fun hm => h (List.mem_cons_of_mem c hm)
    simp [findSub, leadsWith, hc, ih h2]

lemma parse_upgrade_path_shape (id rest : List Char) (hid : '/' ∉ id) :
    parse_upgrade_path ("/room/".toList ++ (id ++ '/' :: rest)) =
      (if rest = "host".toList then (if id = [] then none else some (id, true))
       else if rest = "viewer".toList then (if id = [] then none else some (id, false))
       else none) := by
  have h0 : findSub "/room/".toList ("/room/".toList ++ (id ++ '/' :: rest)) = some 0 :=
    findSub_here _ _ (leadsWith_append _ _)
  have hdrop : ("/room/".toList ++ (id ++ '/' :: rest)).drop (0 + 6) = id ++ '/' :: rest := by
    rw [Nat.zero_add, show (6 : Nat) = ("/room/".toList).length from rfl, List.drop_left]
  have hslash : findSub ['/'] (id ++ '/' :: rest) = some id.length := findSub_slash id rest hid
  have htake : (id ++ '/' :: rest).take id.length = id := List.take_left id ('/' :: rest)
  have hdrop2 : (id ++ '/' :: rest).drop (id.length + 1) = rest := by
    rw [show id ++ '/' :: rest = (id ++ ['/']) ++ rest by simp,
        show id.length + 1 = (id ++ ['/']).length by simp, List.drop_left]
  unfold parse_upgrade_path
  rw [h0]
  simp only [hdrop, hslash, htake, hdrop2]

/-- C5: for an upgrade request on a path of the shape room prefix, nonempty
slash free identifier, slash, remainder: the role segment host yields a
session bound to that room with role HOST, viewer yields role VIEWER, and any
path whose segment after the room identifier is neither host nor viewer is
rejected with no session created, whatever key, write outcome or clock. -/
theorem upgrade_path_roles (id rest : List Char) (key : String) (ts : Nat)
    (hid : '/' ∉ id) (hne : id ≠ []) :
    (rest = "host".toList →
      handle_websocket_upgrade ("/room/".toList ++ (id ++ '/' :: rest)) (some key) true ts =
        some ⟨String.mk id, String.mk (mk_peer_id id true ts), true, true⟩) ∧
    (rest = "viewer".toList →
      handle_websocket_upgrade ("/room/".toList ++ (id ++ '/' :: rest)) (some key) true ts =
        some ⟨String.mk id, String.mk (mk_peer_id id false ts), false, true⟩) ∧
    (rest.takeWhile (fun c => c ≠ '/') ≠ "host".toList →
     rest.takeWhile (fun c => c ≠ '/') ≠ "viewer".toList →
     ∀ (wsKey : Option String) (writeOk : Bool) (ts2 : Nat),
       handle_websocket_upgrade ("/room/".toList ++ (id ++ '/' :: rest)) wsKey writeOk ts2 = none) := by
  have hp := parse_upgrade_path_shape id rest hid
  refine ⟨?_, ?_, ?_⟩
  · intro hrest
    subst hrest
    unfold handle_websocket_upgrade
    rw [hp]
    simp [hne]
  · intro hrest
    subst hrest
    unfold handle_websocket_upgrade
    rw [hp]
    simp [hne]
  · intro h1 h2 wsKey writeOk ts2
    have hrh : rest ≠ "host".toList := by
      intro he
      subst he
      exact h1 (by decide)
    have hrv : rest ≠ "viewer".toList := by
      intro he
      subst he
      exact h2 (by decide)
    unfold handle_websocket_upgrade
    rw [hp, if_neg hrh, if_neg hrv]

/-- Witness for C5 at the concrete paths room abc host and room abc admin. -/
theorem upgrade_path_roles_witness :
    handle_websocket_upgrade ("/room/".toList ++ ("abc".toList ++ '/' :: "host".toList))
      (some "k") true 5 = some ⟨"abc", "abc_host_5", true, true⟩ ∧
    handle_websocket_upgrade ("/room/".toList ++ ("abc".toList ++ '/' :: "admin".toList))
      none false 0 = none := by
  have h := upgrade_path_roles "abc".toList "host".toList "k" 5 (by decide) (by decide)
  have h2 := upgrade_path_roles "abc".toList "admin".toList "k" 0 (by decide) (by decide)
  exact ⟨(h.1 rfl).trans (by decide), h2.2.2 (by decide) (by decide) none false 0⟩

/-- Whether an effect surfaces a failure to the connected client: a frame of
the error wire type.  Closing the transport is visible in the session state
itself. -/
def isFailureSurface : Effect → Bool
  | .send_self f => leadsWith "\x7b\"type\":\"error\"".toList f.toList
  | _ => false

lemma leads_err_join (t : String) :
    leadsWith "\x7b\"type\":\"error\"".toList (build_message .JOIN t).data = false := rfl

/-- C7 counterexample: with the collaborator failing (add_peer returning the
empty peer id) on a concrete JOIN, the router neither closes the connection
nor sends any error typed frame: the failure is not surfaced as an explicit
failure result, the session carries on with an empty bound identity. -/
theorem add_peer_failure_cex :
    srvFail.add_peer (parse_message joinViewerInput).room_id joinViewerInput joinViewerInput
      Role.VIEWER = "" ∧
    ¬ ((handle_message srvFail sessUnjoined joinViewerInput).1.isOpen = false ∨
       (handle_message srvFail sessUnjoined joinViewerInput).2.any isFailureSurface = true) := by
  decide

/-- C7 amended: when add_peer fails with an empty peer id the router proceeds
exactly as on success: it binds the empty identity, leaves the connection
open, performs the add_peer call and sends the ordinary JOIN ack carrying the
empty peer id; no error frame is emitted, and no registry mutation occurs on
this path (the native path session is never registered). -/
theorem add_peer_failure_behavior (srv : StreamingServer) (s : Session) (input : String)
    (hopen : s.isOpen = true) (ht : (parse_message input).type = .JOIN)
    (hfail : srv.add_peer (parse_message input).room_id input input
      (if strContains input "\"role\":\"host\"" then Role.HOST else Role.VIEWER) = "") :
    (handle_message srv s input).1.peer_id = "" ∧
    (handle_message srv s input).1.isOpen = true ∧
    (handle_message srv s input).2 =
      [Effect.add_peer_call (parse_message input).room_id input input
         (if strContains input "\"role\":\"host\"" then Role.HOST else Role.VIEWER),
       Effect.send_self (build_message .JOIN
         ("\x7b\"peer_id\":\"\",\"room_id\":\"" ++ (parse_message input).room_id ++ "\"\x7d"))] ∧
    (handle_message srv s input).2.any isFailureSurface = false := by
  rw [handle_message_join srv s input ht]
  rw [hfail]
  exact ⟨rfl, hopen, rfl, rfl⟩

/-- Witness for C7 amended at the failing oracle and a concrete JOIN. -/
theorem add_peer_failure_witness :
    (handle_message srvFail sessUnjoined joinViewerInput).1.peer_id = "" ∧
    (handle_message srvFail sessUnjoined joinViewerInput).1.isOpen = true ∧
    (handle_message srvFail sessUnjoined joinViewerInput).2.any isFailureSurface = false := by
  have h := add_peer_failure_behavior srvFail sessUnjoined joinViewerInput rfl (by decide) (by decide)
  exact ⟨h.1, h.2.1, h.2.2.2⟩

/-- A running server with an empty registry, for the stop counterexample. -/
def runningServer : WSServer := ⟨true, true, []⟩

/-- C8 counterexample: register_session is not guarded by the running flag, so
after stop it still inserts into the registry: a registry operation invoked
after stop that is not a no-op. -/
theorem stop_not_noop_cex :
    (stop runningServer).1.sessions = [] ∧
    register_session (stop runningServer).1 "p" sessUnjoined ≠ (stop runningServer).1 := by
  decide

/-- C8 amended: stop on a running server performs, in source order: clear the
running flag, close every registered session and empty the map, close the
acceptor, stop the io context, join the accept thread (so the accept thread
is joined last, and the acceptor is closed only after the sessions are); the
resulting state has the registry empty, and unregister, broadcast and unicast
on it are no-ops, but register_session is not guarded and still inserts. -/
theorem stop_teardown (st : WSServer) (hrun : st.running = true) :
    (stop st).2 = [StopStep.setRunningFalse, StopStep.closeSessionsAndClear,
                   StopStep.closeAcceptor, StopStep.stopIoContext, StopStep.joinAcceptThread] ∧
    (stop st).1 = ⟨false, false, []⟩ ∧
    (∀ p, unregister_session (stop st).1 p = (stop st).1) ∧
    (∀ R m E, broadcast_to_room (stop st).1.sessions R m E = []) ∧
    (∀ p m, send_to_peer (stop st).1.sessions p m = none) ∧
    (∀ p s, (register_session (stop st).1 p s).sessions = [(p, s)]) := by
  have h : stop st = (⟨false, false, []⟩,
      [StopStep.setRunningFalse, StopStep.closeSessionsAndClear,
       StopStep.closeAcceptor, StopStep.stopIoContext, StopStep.joinAcceptThread]) := by
    unfold stop
    simp [hrun]
  refine ⟨by rw [h], by rw [h], ?_, ?_, ?_, ?_⟩ <;>
    simp [h, unregister_session, broadcast_to_room, send_to_peer, register_session, lookupA]

/-- Witness for C8 amended at a concrete running server. -/
theorem stop_teardown_witness :
    (stop runningServer).2 = [StopStep.setRunningFalse, StopStep.closeSessionsAndClear,
        StopStep.closeAcceptor, StopStep.stopIoContext, StopStep.joinAcceptThread] ∧
    (stop runningServer).1 = ⟨false, false, []⟩ ∧
    broadcast_to_room (stop runningServer).1.sessions "R" "m" "" = [] := by
  have h := stop_teardown runningServer rfl
  exact ⟨h.1, h.2.1, h.2.2.2.1 "R" "m" ""⟩

lemma lookupA_mem {α : Type} {l : List (String × α)} {k : String} {v : α}
    (h : lookupA l k = some v) : (k, v) ∈ l := by
  induction l with
  | nil => cases h
  | cons kv rest ih =>
    unfold lookupA at h
    by_cases hk : kv.1 = k
    · rw [if_pos hk] at h
      injection h with hv
      exact List.mem_cons.mpr (Or.inl (Prod.ext hk (hv.symm ▸ rfl)).symm)
    · rw [if_neg hk] at h
      exact List.mem_cons_of_mem _ (ih h)

lemma lookupSess_map_keyfix (l : List (Nat × SysSession)) (g : Nat × SysSession → Nat × SysSession)
    (hk : ∀ kv, (g kv).1 = kv.1) (i : Nat) :
    lookupSess (l.map g) i = (lookupSess l i).map (fun ss => (g (i, ss)).2) := by
  induction l with
  | nil => rfl
  | cons kv rest ih =>
    simp only [List.map_cons, lookupSess]
    rw [hk kv]
    by_cases h : kv.1 = i
    · rw [if_pos h, if_pos h]
      have he : (i, kv.2) = kv := Prod.ext h.symm rfl
      show some (g kv).2 = some ((g (i, kv.2)).2)
      rw [he]
    · rw [if_neg h, if_neg h, ih]

lemma lookupSess_update (l : List (Nat × SysSession)) (i : Nat) (f : SysSession → SysSession)
    (j : Nat) :
    lookupSess (updateSess l i f) j =
      (lookupSess l j).map (fun ss => if j = i then f ss else ss) := by
  unfold updateSess
  rw [lookupSess_map_keyfix l _ (by intro kv; split <;> rfl) j]
  congr 1
  funext ss
  by_cases h : j = i <;> simp [h]

lemma lookupSess_cons_ne (j : Nat) (ss : SysSession) (l : List (Nat × SysSession))
    (i : Nat) (h : j ≠ i) : lookupSess ((j, ss) :: l) i = lookupSess l i := by
  simp [lookupSess, h]

/-- The registry provenance invariant: every registry value is the handle of a
session constructed on the handoff path, and is below the id counter. -/
def SysInv (st : SysState) : Prop :=
  (∀ pr ∈ st.registry, pr.2 < st.nextId) ∧
  (∀ pr ∈ st.registry, ∃ ss, lookupSess st.sessions pr.2 = some ss ∧ ss.origin = .handoff)

lemma applyEvent_inv (srv : StreamingServer) (st : SysState) (e : SysEvent)
    (h : SysInv st) : SysInv (applyEvent srv st e) := by
  rcases h with ⟨hbound, hreg⟩
  cases e with
  | nativeAccept =>
    refine ⟨fun pr hpr => Nat.lt_succ_of_lt (hbound pr hpr), fun pr hpr => ?_⟩
    rcases hreg pr hpr with ⟨ss, hlk, ho⟩
    refine ⟨ss, ?_, ho⟩
    show lookupSess ((st.nextId, ⟨⟨"", "", false, true⟩, Origin.native⟩) :: st.sessions) pr.2 = some ss
    exact (lookupSess_cons_ne st.nextId _ st.sessions pr.2
      (Nat.ne_of_gt (hbound pr hpr))).trans hlk
  | handoffAccept room peer is_host =>
    constructor
    · intro pr hpr
      rcases List.mem_cons.mp hpr with hh | hh
      · rw [hh]
        exact Nat.lt_succ_self st.nextId
      · exact Nat.lt_succ_of_lt (hbound pr (List.mem_of_mem_filter hh))
    · intro pr hpr
      rcases List.mem_cons.mp hpr with hh | hh
      · refine ⟨⟨⟨room, peer, is_host, true⟩, Origin.handoff⟩, ?_, rfl⟩
        rw [hh]
        simp [lookupSess]
      · have hmem := List.mem_of_mem_filter hh
        rcases hreg pr hmem with ⟨ss, hlk, ho⟩
        refine ⟨ss, ?_, ho⟩
        exact (lookupSess_cons_ne st.nextId _ st.sessions pr.2
          (Nat.ne_of_gt (hbound pr hmem))).trans hlk
  | frame sid input =>
    refine ⟨hbound, fun pr hpr => ?_⟩
    rcases hreg pr hpr with ⟨ss, hlk, ho⟩
    refine ⟨if pr.2 = sid then (if ss.sess.isOpen then
        { ss with sess := (handle_message srv ss.sess input).1 } else ss) else ss, ?_, ?_⟩
    · show lookupSess (updateSess st.sessions sid
        (fun ss => if ss.sess.isOpen then
          { ss with sess := (handle_message srv ss.sess input).1 } else ss)) pr.2 = _
      rw [lookupSess_update, hlk]
      rfl
    · by_cases hs : pr.2 = sid <;> by_cases hopen : ss.sess.isOpen <;> simp [hs, hopen, ho]
  | unregister peer =>
    exact ⟨fun pr hpr => hbound pr (List.mem_of_mem_filter hpr),
           fun pr hpr => hreg pr (List.mem_of_mem_filter hpr)⟩
  | serverStop =>
    exact ⟨fun pr hpr => absurd hpr (List.not_mem_nil pr),
           fun pr hpr => absurd hpr (List.not_mem_nil pr)⟩

lemma runEvents_inv (srv : StreamingServer) (evs : List SysEvent) :
    SysInv (runEvents srv evs) := by
  have hgen : ∀ (st : SysState), SysInv st → SysInv (evs.foldl (applyEvent srv) st) := by
    induction evs with
    | nil => exact fun st h => h
    | cons e rest ih =>
      intro st h
      exact ih _ (applyEvent_inv srv st e h)
  exact hgen initState ⟨fun pr hpr => absurd hpr (List.not_mem_nil pr),
                        fun pr hpr => absurd hpr (List.not_mem_nil pr)⟩

/-- C10: after any sequence of events the code performs, every registry entry
points at a session constructed on the pre negotiated handoff path; a session
constructed by the native accept path is never registered, not at construction
and not by later processing a JOIN frame, so neither a broadcast nor a unicast
ever delivers to it. -/
theorem registry_provenance (srv : StreamingServer) (evs : List SysEvent) :
    (∀ pr ∈ (runEvents srv evs).registry,
      ∃ ss, lookupSess (runEvents srv evs).sessions pr.2 = some ss ∧ ss.origin = .handoff) ∧
    (∀ sid ss, lookupSess (runEvents srv evs).sessions sid = some ss → ss.origin = .native →
      (∀ p, (p, sid) ∉ (runEvents srv evs).registry) ∧
      (∀ R E, sid ∉ sysBroadcastTargets (runEvents srv evs) R E) ∧
      (∀ p, sysSendTarget (runEvents srv evs) p ≠ some sid)) := by
  have hinv := runEvents_inv srv evs
  refine ⟨hinv.2, ?_⟩
  intro sid ss hlk horig
  have hnot : ∀ p, (p, sid) ∉ (runEvents srv evs).registry := by
    intro p hmem
    rcases hinv.2 (p, sid) hmem with ⟨ss', hlk', ho'⟩
    rw [hlk] at hlk'
    injection hlk' with he
    exact Origin.noConfusion (horig.symm.trans (he ▸ ho'))
  refine ⟨hnot, ?_, ?_⟩
  · intro R E hmem
    unfold sysBroadcastTargets at hmem
    rcases List.mem_filterMap.mp hmem with ⟨pr, hpr, hf⟩
    split at hf
    · split at hf
      · injection hf with he
        apply hnot pr.1
        have hpe : (pr.1, sid) = pr := by rw [← he]
        rw [hpe]
        exact hpr
      · cases hf
    · cases hf
  · intro p hsend
    unfold sysSendTarget at hsend
    split at hsend
    · rename_i sid2 heq
      split at hsend
      · injection hsend with he
        exact hnot p (he ▸ lookupA_mem heq)
      · cases hsend
    · cases hsend

/-- A concrete run: one native accept, one handoff, then the native session
processes a JOIN frame. -/
def evs0 : List SysEvent :=
  [.nativeAccept, .handoffAccept "r" "q" true, .frame 0 joinHostInput]

/-- Witness for C10: in the concrete run the native session (handle 0), even
after processing a JOIN, is absent from the registry and from the broadcast
targets of its own room. -/
theorem registry_provenance_witness :
    ("q", 0) ∉ (runEvents srv0 evs0).registry ∧
    0 ∉ sysBroadcastTargets (runEvents srv0 evs0) "r1" "" := by
  have h := (registry_provenance srv0 evs0).2 0 ⟨⟨"r1", "p1", true, true⟩, Origin.native⟩
    (by decide) rfl
  exact ⟨h.1 "q", h.2.1 "r1" ""⟩

end MediaServer
